import Mathlib

/-!
# Verification of the vault-sidekick run coordinator and metrics aggregator

This file gives a shallow embedding, in Lean 4, of the event-driven core of
the vault-sidekick repository:

* the run-coordination state machine of `main` in `main.go` (the `toProcess`
  pending list, the `failedResource` flag, and the `os.Exit` decision);
* the expiry observer `reportExpiryMetrics` in `main.go`;
* the metrics collector of `metrics/collector.go` and its initialization in
  `metrics/metrics.go`.

Conventions of the embedding:

* Go machine integers that only ever count events are modelled as `Int` /
  `Nat` (the code never relies on wrap-around);
* Go maps that the code reads and writes through an allocated handle are
  modelled as total functions with the Go zero value as default (a read of a
  missing key yields the zero value, exactly as in Go); where nil-ness of a
  map or descriptor is the point (the `Init` function of
  `metrics/metrics.go`), maps are modelled as `Option` of an association
  list and a write into a `none` map is a Go runtime panic;
* each event handler body runs under `toProcessLock` (respectively
  `metricsMutex`), so any concurrent execution is equivalent to some
  sequential interleaving; runs are therefore modelled as folds of a step
  function over a list of events / operations;
* `glog` logging has no effect on any modelled state and is dropped;
* `os.Exit(code)` is modelled by setting an `exited` field, after which the
  step function is the identity (the process is gone).
-/

namespace VaultSidekick

/-- Resource identity: the stable kind+path composite (`VaultResource.ID()`).
The declared resources of `options.resources.items` are distinct heap
allocations compared by pointer identity in `main.go`; we model that identity
by a string and require the declared list to be duplicate free. -/
abbrev RID := String

/-- The outcome tag of a `VaultEvent` (`EventTypeSuccess` / `EventTypeFailure`). -/
inductive EventType
  | success
  | failure
deriving DecidableEq

/-- A `VaultEvent` as the run coordinator in `main.go` consumes it:
the resource identity, the outcome, and the `MaxRetries` and `Retries`
fields carried on `evt.Resource`.  `writeOk` records whether the external
materialization step `processResource` (not part of the coordinator) would
return a nil error for this event; `main.go` inspects that error only to log
it. -/
structure VaultEvent where
  type : EventType
  resource : RID
  maxRetries : Nat
  retries : Nat
  writeOk : Bool
deriving DecidableEq

/-- The shared state of the run coordinator in `main`:
`toProcess` (guarded by `toProcessLock`), the `failedResource` flag, and
whether `os.Exit` has run and with which status. -/
structure CoordState where
  toProcess : List RID
  failedResource : Bool
  exited : Option Nat
deriving DecidableEq

/-- The `switch r.Type` body of the event handler in `main` (`main.go`):

* on Success, `processResource` is executed and its error only logged
  (no modelled state changes), then, in one-shot mode only, the matching
  resource is removed from `toProcess`;
* on Failure, if `MaxRetries > 0 && MaxRetries < Retries` the matching
  resource is removed from `toProcess` and `failedResource` is set. -/
def coordTransition (oneShot : Bool) (s : CoordState) (evt : VaultEvent) : CoordState :=
  match evt.type with
  | .success =>
      if oneShot then { s with toProcess := s.toProcess.erase evt.resource } else s
  | .failure =>
      if 0 < evt.maxRetries ∧ evt.maxRetries < evt.retries ∧ evt.resource ∈ s.toProcess then
        { s with toProcess := s.toProcess.erase evt.resource, failedResource := true }
      else s

/-- One full handler execution of the event loop of `main`, the body of the
per-event goroutine, which runs entirely under `toProcessLock`: after
`os.Exit` nothing further happens; otherwise the transition runs and then,
if `toProcess` is empty, the process exits with status 1 when
`failedResource` is set and status 0 otherwise. -/
def coordStep (oneShot : Bool) (s : CoordState) (evt : VaultEvent) : CoordState :=
  match s.exited with
  | some _ => s
  | none =>
    let s1 := coordTransition oneShot s evt
    if s1.toProcess.isEmpty then
      { s1 with exited := some (if s1.failedResource then 1 else 0) }
    else s1

/-- A complete run of `main` over a finite event sequence: before the event
loop, a one-shot run with an empty declared resource list exits immediately
with status 0 (`main.go`, the check right before the `for` loop); otherwise
the event loop folds `coordStep` over the events. -/
def coordRun (oneShot : Bool) (declared : List RID) (events : List VaultEvent) : CoordState :=
  if oneShot ∧ declared.isEmpty then
    { toProcess := declared, failedResource := false, exited := some 0 }
  else
    events.foldl (coordStep oneShot) { toProcess := declared, failedResource := false, exited := none }

/-- An event resolves a resource when it is a Success for it, or a Failure
for it whose carried retry count exceeds a positive retry budget. -/
def resolves (e : VaultEvent) (r : RID) : Prop :=
  e.resource = r ∧
    (e.type = .success ∨ (e.type = .failure ∧ 0 < e.maxRetries ∧ e.maxRetries < e.retries))

instance (e : VaultEvent) (r : RID) : Decidable (resolves e r) := by
  unfold resolves; infer_instance

/-- States whose recorded exit, if any, is coherent: the pending list was
empty at exit time and the status is 1 exactly when the failure flag is set. -/
def goodExit (s : CoordState) : Prop :=
  ∀ c, s.exited = some c → s.toProcess = [] ∧ c = (if s.failedResource then 1 else 0)

/-- Modelled from the spec: the watcher component (the fetch/renew loop of
`vault.go`, which is not among the sources verified here) maintains the
observed retry count of each resource and, per the spec, must set the
`Retries` field faithfully; each Failure event thus carries the incremented
observed retry count. -/
def watcherRetryBump (observed : Nat) : Nat := observed + 1

/-! ## The metrics collector of `metrics/collector.go` -/

/-- The data fields of the `collector` struct of `metrics/collector.go`.
Each allocated Go map is modelled as a total function whose default is the
Go zero value, matching a Go map read of a missing key; counters are `Int`
for the `int64` fields.  The gauge map `resourceExpiry` is `Option`-valued
so that the absence of an entry is observable.  Descriptor fields are
modelled separately (`DescName`), and nil-ness of the maps as produced by
`Init` is modelled separately (`NilCollector`). -/
structure MState where
  resourceExpiry : String → Option Int
  resourceTotals : String → Int
  resourceSuccesses : String → Int
  resourceErrors : String → Int
  resourceProcessTotals : String → String → Int
  resourceProcessSuccesses : String → String → Int
  resourceProcessErrors : String → String → Int
  tokenTotals : Int
  tokenSuccesses : Int
  tokenErrors : Int
  errors : String → Int

/-- The update methods of the collector (`metrics/collector.go`), one
constructor per exported mutating method; each method body runs under
`metricsMutex`, so a concurrent history is a sequence of these. -/
inductive MOp
  | ResourceExpiry (resourceID : String) (expiry : Int)
  | ResourceTotal (resourceID : String)
  | ResourceSuccess (resourceID : String)
  | ResourceError (resourceID : String)
  | ResourceProcessTotal (resourceID stage : String)
  | ResourceProcessSuccess (resourceID stage : String)
  | ResourceProcessError (resourceID stage : String)
  | TokenTotal
  | TokenSuccess
  | TokenError
  | Error (reason : String)
deriving DecidableEq

/-- The effect of one collector method (`metrics/collector.go`): the gauge
write is last-write-wins, every other method increments exactly one counter
(`ResourceProcessTotal` and friends first allocate the inner stage map when
missing, which a total-function map renders as a plain increment). -/
def applyOp (c : MState) : MOp → MState
  | .ResourceExpiry id v =>
      { c with resourceExpiry := fun k => if k = id then some v else c.resourceExpiry k }
  | .ResourceTotal id =>
      { c with resourceTotals := fun k =>
          if k = id then c.resourceTotals k + 1 else c.resourceTotals k }
  | .ResourceSuccess id =>
      { c with resourceSuccesses := fun k =>
          if k = id then c.resourceSuccesses k + 1 else c.resourceSuccesses k }
  | .ResourceError id =>
      { c with resourceErrors := fun k =>
          if k = id then c.resourceErrors k + 1 else c.resourceErrors k }
  | .ResourceProcessTotal id stage =>
      { c with resourceProcessTotals := fun k j =>
          if k = id ∧ j = stage then c.resourceProcessTotals k j + 1
          else c.resourceProcessTotals k j }
  | .ResourceProcessSuccess id stage =>
      { c with resourceProcessSuccesses := fun k j =>
          if k = id ∧ j = stage then c.resourceProcessSuccesses k j + 1
          else c.resourceProcessSuccesses k j }
  | .ResourceProcessError id stage =>
      { c with resourceProcessErrors := fun k j =>
          if k = id ∧ j = stage then c.resourceProcessErrors k j + 1
          else c.resourceProcessErrors k j }
  | .TokenTotal => { c with tokenTotals := c.tokenTotals + 1 }
  | .TokenSuccess => { c with tokenSuccesses := c.tokenSuccesses + 1 }
  | .TokenError => { c with tokenErrors := c.tokenErrors + 1 }
  | .Error reason =>
      { c with errors := fun k => if k = reason then c.errors k + 1 else c.errors k }

/-- A key naming one individual counter held by the collector. -/
inductive CKey
  | rTotal (resourceID : String)
  | rSuccess (resourceID : String)
  | rError (resourceID : String)
  | rpTotal (resourceID stage : String)
  | rpSuccess (resourceID stage : String)
  | rpError (resourceID stage : String)
  | tokTotal
  | tokSuccess
  | tokError
  | genError (reason : String)
deriving DecidableEq

/-- The current value of an individual counter. -/
def counterVal (c : MState) : CKey → Int
  | .rTotal id => c.resourceTotals id
  | .rSuccess id => c.resourceSuccesses id
  | .rError id => c.resourceErrors id
  | .rpTotal id stage => c.resourceProcessTotals id stage
  | .rpSuccess id stage => c.resourceProcessSuccesses id stage
  | .rpError id stage => c.resourceProcessErrors id stage
  | .tokTotal => c.tokenTotals
  | .tokSuccess => c.tokenSuccesses
  | .tokError => c.tokenErrors
  | .genError reason => c.errors reason

/-- The single counter a method increments (`none` for the gauge write). -/
def opKey : MOp → Option CKey
  | .ResourceExpiry _ _ => none
  | .ResourceTotal id => some (.rTotal id)
  | .ResourceSuccess id => some (.rSuccess id)
  | .ResourceError id => some (.rError id)
  | .ResourceProcessTotal id stage => some (.rpTotal id stage)
  | .ResourceProcessSuccess id stage => some (.rpSuccess id stage)
  | .ResourceProcessError id stage => some (.rpError id stage)
  | .TokenTotal => some .tokTotal
  | .TokenSuccess => some .tokSuccess
  | .TokenError => some .tokError
  | .Error reason => some (.genError reason)

/-- The value the gauge entry of `resourceID` holds after a sequence of
methods, starting from `init`: the payload of the last matching gauge
write, else `init`. -/
def lastWriteFrom (resourceID : String) (init : Option Int) (ops : List MOp) : Option Int :=
  ops.foldl (fun acc o =>
    match o with
    | MOp.ResourceExpiry id v => if resourceID = id then some v else acc
    | _ => acc) init

/-! ## Descriptors: `Describe` versus `Collect` (`metrics/collector.go`) -/

/-- The metric descriptor fields of the `collector` struct, by field name. -/
inductive DescName
  | resourceExpiryMetric
  | resourceTotalMetric
  | resourceSuccessMetric
  | resourceErrorsMetric
  | resourceProcessTotalMetric
  | resourceProcessSuccessMetric
  | resourceProcessErrorsMetric
  | tokenTotalMetric
  | tokenSuccessMetric
  | tokenErrorsMetric
  | errorsMetric
deriving DecidableEq

/-- The descriptors that the `Describe` method of `metrics/collector.go`
sends on its channel, in program order.  `Describe` reads only the fixed
descriptor fields of the receiver and none of the data maps, so the list
does not depend on the collector data state, which the argument records. -/
def describe (_c : MState) : List DescName :=
  [.resourceExpiryMetric,
   .resourceTotalMetric, .resourceSuccessMetric, .resourceErrorsMetric,
   .tokenTotalMetric, .tokenSuccessMetric, .tokenErrorsMetric,
   .errorsMetric]

/-- The descriptor under which each `MustNewConstMetric` call in the body of
the `Collect` method of `metrics/collector.go` emits its samples, in program
order: the complete set of metric families `Collect` can ever emit. -/
def collectDescs : List DescName :=
  [.resourceExpiryMetric,
   .resourceTotalMetric, .resourceSuccessMetric, .resourceErrorsMetric,
   .resourceProcessTotalMetric, .resourceProcessSuccessMetric,
   .resourceProcessErrorsMetric,
   .tokenTotalMetric, .tokenSuccessMetric, .tokenErrorsMetric,
   .errorsMetric]

/-- The collector data state that `Init` of `metrics/metrics.go` allocates
for the fields it does initialize: empty maps and zero token counters. -/
def mInit : MState where
  resourceExpiry := fun _ => none
  resourceTotals := fun _ => 0
  resourceSuccesses := fun _ => 0
  resourceErrors := fun _ => 0
  resourceProcessTotals := fun _ _ => 0
  resourceProcessSuccesses := fun _ _ => 0
  resourceProcessErrors := fun _ _ => 0
  tokenTotals := 0
  tokenSuccesses := 0
  tokenErrors := 0
  errors := fun _ => 0

/-! ## The expiry observer `reportExpiryMetrics` (`main.go`) -/

/-- A `json.Number` payload value: either one whose `Int64()` call succeeds,
or one whose `Int64()` call returns an error. -/
inductive JNum
  | int (v : Int)
  | nonInt
deriving DecidableEq

/-- A `VaultEvent` as the expiry observer reads it: the outcome, the
resource kind (`event.Resource.Resource`), the resource identity
(`event.Resource.ID()`), and the view of `event.Secret["expiration"]`:
`none` when the type assertion `.(json.Number)` fails — the key is absent or
its value is not a `json.Number`. -/
structure ObsEvent where
  type : EventType
  resourceKind : String
  resourceID : String
  expiration : Option JNum
deriving DecidableEq

/-- A Go runtime panic; a panic in any goroutine crashes the process. -/
inductive GoPanic
  | nilDeref
  | nilMapAssign
deriving DecidableEq

/-- The package function `metrics.Error` of `metrics/metrics.go`:
`col.Error(reason)`.  In one-shot mode `metrics.Init` is never called, the
package-level `col` pointer stays nil, and the method body dereferences it
(`c.metricsMutex.Lock()`): a runtime panic. -/
def metricsError (col : Option MState) (reason : String) :
    Except GoPanic (Option MState) :=
  match col with
  | none => .error .nilDeref
  | some c => .ok (some (applyOp c (.Error reason)))

/-- The package function `metrics.ResourceExpiry` of `metrics/metrics.go`:
`col.ResourceExpiry(resourceID, expiry)`, with the same nil-pointer panic
when `col` was never initialized. -/
def metricsResourceExpiry (col : Option MState) (resourceID : String) (expiry : Int) :
    Except GoPanic (Option MState) :=
  match col with
  | none => .error .nilDeref
  | some c => .ok (some (applyOp c (.ResourceExpiry resourceID expiry)))

/-- One iteration of the event loop of `reportExpiryMetrics` (`main.go`):
Failure events and non-pki resources are skipped; a failed
`expiration` type assertion reports `no_expiration_in_pki_resource`; a
failed `Int64()` conversion reports `expiration_not_int64`; otherwise the
expiry gauge for the resource is written. -/
def reportExpiryStep (col : Option MState) (e : ObsEvent) :
    Except GoPanic (Option MState) :=
  if e.type = .failure then .ok col
  else if e.resourceKind ≠ "pki" then .ok col
  else
    match e.expiration with
    | none => metricsError col "no_expiration_in_pki_resource"
    | some .nonInt => metricsError col "expiration_not_int64"
    | some (.int v) => metricsResourceExpiry col e.resourceID v

/-! ## Nil-ness of the collector fields after `Init` (`metrics/metrics.go`) -/

/-- The `collector` struct of `metrics/collector.go` with nil-ness made
explicit: each `*prometheus.Desc` field is recorded as created (`true`) or
left nil (`false`), and each Go map field as an allocated association list
(`some`) or nil (`none`).  Go reads of a nil map yield zero values, but an
assignment into a nil map is a runtime panic. -/
structure NilCollector where
  resourceExpiryMetric : Bool
  resourceTotalMetric : Bool
  resourceSuccessMetric : Bool
  resourceErrorsMetric : Bool
  resourceProcessTotalMetric : Bool
  resourceProcessSuccessMetric : Bool
  resourceProcessErrorsMetric : Bool
  tokenTotalMetric : Bool
  tokenSuccessMetric : Bool
  tokenErrorsMetric : Bool
  errorsMetric : Bool
  resourceExpiry : Option (List (String × Int))
  resourceTotals : Option (List (String × Int))
  resourceSuccesses : Option (List (String × Int))
  resourceErrors : Option (List (String × Int))
  resourceProcessTotals : Option (List (String × List (String × Int)))
  resourceProcessSuccesses : Option (List (String × List (String × Int)))
  resourceProcessErrors : Option (List (String × List (String × Int)))
  errors : Option (List (String × Int))
  tokenTotals : Int
  tokenSuccesses : Int
  tokenErrors : Int
deriving DecidableEq

/-- The collector literal built by `Init` of `metrics/metrics.go`: it creates
the expiry, resource total/success/error and generic-error descriptors and
allocates the corresponding five maps, and initializes nothing else — the
three process-stage maps, the three process-stage descriptors and the three
token descriptors stay at their Go zero values (nil). -/
def metricsInit : NilCollector where
  resourceExpiryMetric := true
  resourceTotalMetric := true
  resourceSuccessMetric := true
  resourceErrorsMetric := true
  resourceProcessTotalMetric := false
  resourceProcessSuccessMetric := false
  resourceProcessErrorsMetric := false
  tokenTotalMetric := false
  tokenSuccessMetric := false
  tokenErrorsMetric := false
  errorsMetric := true
  resourceExpiry := some []
  resourceTotals := some []
  resourceSuccesses := some []
  resourceErrors := some []
  resourceProcessTotals := none
  resourceProcessSuccesses := none
  resourceProcessErrors := none
  errors := some []
  tokenTotals := 0
  tokenSuccesses := 0
  tokenErrors := 0

/-- Increment of one key in an allocated Go map (`m[k]++`): a missing key
reads as 0 and the entry is created with value 1. -/
def bump (m : List (String × Int)) (k : String) : List (String × Int) :=
  match m with
  | [] => [(k, 1)]
  | (k1, v) :: rest => if k1 = k then (k1, v + 1) :: rest else (k1, v) :: bump rest k

/-- The body shared by the three process-stage methods of
`metrics/collector.go` on an allocated outer map: allocate the inner stage
map when the resource has none, then increment the stage entry. -/
def bumpStage (m : List (String × List (String × Int))) (resourceID stage : String) :
    List (String × List (String × Int)) :=
  match m with
  | [] => [(resourceID, [(stage, 1)])]
  | (k1, mm) :: rest =>
      if k1 = resourceID then (k1, bump mm stage) :: rest
      else (k1, mm) :: bumpStage rest resourceID stage

/-- `ResourceProcessTotal` of `metrics/collector.go` over explicit nil-ness:
when the outer map is nil, the `ok` lookup succeeds with `ok = false`, and
the subsequent `c.resourceProcessTotals[resourceID] = make(map[string]int64)`
assigns into a nil map — a runtime panic, before any increment is recorded. -/
def nilResourceProcessTotal (c : NilCollector) (resourceID stage : String) :
    Except GoPanic NilCollector :=
  match c.resourceProcessTotals with
  | none => .error .nilMapAssign
  | some m => .ok { c with resourceProcessTotals := some (bumpStage m resourceID stage) }

/-- `ResourceProcessSuccess` of `metrics/collector.go`, likewise. -/
def nilResourceProcessSuccess (c : NilCollector) (resourceID stage : String) :
    Except GoPanic NilCollector :=
  match c.resourceProcessSuccesses with
  | none => .error .nilMapAssign
  | some m => .ok { c with resourceProcessSuccesses := some (bumpStage m resourceID stage) }

/-- `ResourceProcessError` of `metrics/collector.go`, likewise. -/
def nilResourceProcessError (c : NilCollector) (resourceID stage : String) :
    Except GoPanic NilCollector :=
  match c.resourceProcessErrors with
  | none => .error .nilMapAssign
  | some m => .ok { c with resourceProcessErrors := some (bumpStage m resourceID stage) }

/-! ## Lock discipline of the event handler (`main.go`) -/

/-- The observable actions of the per-event goroutine body in the event loop
of `main` (`main.go`), in source order:
`toProcessLock.Lock()`, the `processResource` call (materialization), the
one-shot removal loop, the failure-branch transition, the
`len(toProcess) == 0` exit check, and the deferred `toProcessLock.Unlock()`. -/
inductive HandlerStep
  | lockAcquire
  | lockRelease
  | writeOutput
  | removePending
  | failureTransition
  | exitCheck
deriving DecidableEq

/-- The action trace of the handler goroutine for a Success event
(`main.go`): the lock is taken first, `processResource` runs, in one-shot
mode the pending removal runs, then the exit check, and the deferred unlock
runs last. -/
def successHandlerTrace (oneShot : Bool) : List HandlerStep :=
  [.lockAcquire, .writeOutput] ++
    (if oneShot then [.removePending] else []) ++
    [.exitCheck, .lockRelease]

/-- The action trace of the handler goroutine for a Failure event. -/
def failureHandlerTrace : List HandlerStep :=
  [.lockAcquire, .failureTransition, .exitCheck, .lockRelease]

/-- Whether some occurrence of action `a` in the trace executes while the
lock is held, starting from lock state `held`. -/
def heldDuring (held : Bool) (a : HandlerStep) : List HandlerStep → Bool
  | [] => false
  | x :: xs =>
      (held && decide (x = a)) ||
        heldDuring
          (match x with
            | .lockAcquire => true
            | .lockRelease => false
            | _ => held) a xs

/-! ## Theorems -/

/-- The transition never touches the exit field. -/
theorem coordTransition_exited (b : Bool) (s : CoordState) (e : VaultEvent) :
    (coordTransition b s e).exited = s.exited := by
  unfold coordTransition
  cases e.type <;> simp only <;> split <;> rfl

/-- On a live state, the handler has the same pending list as the bare
transition (the exit check only sets the exit field). -/
theorem coordStep_toProcess (b : Bool) (s : CoordState) (e : VaultEvent)
    (h0 : s.exited = none) :
    (coordStep b s e).toProcess = (coordTransition b s e).toProcess := by
  unfold coordStep
  rw [h0]
  dsimp only
  split <;> rfl

/-- On a live state, the handler has the same failure flag as the bare
transition. -/
theorem coordStep_failedResource (b : Bool) (s : CoordState) (e : VaultEvent)
    (h0 : s.exited = none) :
    (coordStep b s e).failedResource = (coordTransition b s e).failedResource := by
  unfold coordStep
  rw [h0]
  dsimp only
  split <;> rfl

/-- After `os.Exit`, every further handler execution leaves the state alone. -/
theorem coordStep_exited {s : CoordState} {c : Nat} (h : s.exited = some c)
    (b : Bool) (e : VaultEvent) : coordStep b s e = s := by
  unfold coordStep
  rw [h]

/-- After `os.Exit`, a whole tail of events leaves the state alone. -/
theorem coordFold_exited {s : CoordState} {c : Nat} (h : s.exited = some c)
    (b : Bool) (l : List VaultEvent) : l.foldl (coordStep b) s = s := by
  induction l with
  | nil => rfl
  | cons e l ih => simpa [List.foldl_cons, coordStep_exited h] using ih

/-- The transition never invents pending resources. -/
theorem coordTransition_subset (b : Bool) (s : CoordState) (e : VaultEvent) :
    (coordTransition b s e).toProcess ⊆ s.toProcess := by
  unfold coordTransition
  cases e.type <;> simp only <;> split
  all_goals first
    | exact List.erase_subset _ _
    | exact fun x hx => hx

/-- A handler execution never invents pending resources. -/
theorem coordStep_subset (b : Bool) (s : CoordState) (e : VaultEvent) :
    (coordStep b s e).toProcess ⊆ s.toProcess := by
  cases h0 : s.exited with
  | some c => rw [coordStep_exited h0]; exact fun x hx => hx
  | none => rw [coordStep_toProcess b s e h0]; exact coordTransition_subset b s e

/-- The transition preserves duplicate freedom of the pending list. -/
theorem coordTransition_nodup (b : Bool) (s : CoordState) (e : VaultEvent)
    (h : s.toProcess.Nodup) : (coordTransition b s e).toProcess.Nodup := by
  unfold coordTransition
  cases e.type <;> simp only <;> split
  all_goals first
    | exact h.erase _
    | exact h

/-- A handler execution preserves duplicate freedom of the pending list. -/
theorem coordStep_nodup (b : Bool) (s : CoordState) (e : VaultEvent)
    (h : s.toProcess.Nodup) : (coordStep b s e).toProcess.Nodup := by
  cases h0 : s.exited with
  | some c => rw [coordStep_exited h0]; exact h
  | none => rw [coordStep_toProcess b s e h0]; exact coordTransition_nodup b s e h

/-- A handler execution preserves exit coherence. -/
theorem coordStep_goodExit (b : Bool) (s : CoordState) (e : VaultEvent)
    (h : goodExit s) : goodExit (coordStep b s e) := by
  cases h0 : s.exited with
  | some c => rw [coordStep_exited h0]; exact h
  | none =>
    unfold coordStep
    rw [h0]
    dsimp only
    split
    case isTrue hemp =>
      intro c hc
      simp only [Option.some.injEq] at hc
      exact ⟨List.isEmpty_iff.mp hemp, hc.symm⟩
    case isFalse hemp =>
      intro c hc
      rw [coordTransition_exited b s e, h0] at hc
      exact absurd hc (by simp)

/-- A whole run preserves exit coherence. -/
theorem coordFold_goodExit (b : Bool) (l : List VaultEvent) (s : CoordState)
    (h : goodExit s) : goodExit (l.foldl (coordStep b) s) := by
  induction l generalizing s with
  | nil => exact h
  | cons e l ih => exact ih _ (coordStep_goodExit b s e h)

/-- If the handler did not exit, the pending list is still nonempty. -/
theorem coordStep_none_ne_nil {b : Bool} {s : CoordState} {e : VaultEvent}
    (h0 : s.exited = none) (h : (coordStep b s e).exited = none) :
    (coordStep b s e).toProcess ≠ [] := by
  revert h
  unfold coordStep
  rw [h0]
  dsimp only
  split
  case isTrue hemp => intro h; exact absurd h (by simp)
  case isFalse hemp =>
    intro _ hnil
    exact hemp (by rw [hnil]; rfl)

/-- A resolving event for a still-pending resource removes it from the
pending list (one-shot mode, duplicate-free pending list). -/
theorem coordStep_resolves_removes {s : CoordState} {e : VaultEvent} {r : RID}
    (h0 : s.exited = none) (hnd : s.toProcess.Nodup) (hr : r ∈ s.toProcess)
    (hres : resolves e r) : r ∉ (coordStep true s e).toProcess := by
  rw [coordStep_toProcess true s e h0]
  obtain ⟨hid, hcase⟩ := hres
  subst hid
  unfold coordTransition
  rcases hcase with ht | ⟨ht, h1, h2⟩
  · rw [ht]
    simpa using hnd.not_mem_erase
  · rw [ht]
    simp only
    rw [if_pos ⟨h1, h2, hr⟩]
    simpa using hnd.not_mem_erase

/-- Core termination lemma: from a live state with a nonempty, duplicate-free
pending list, an event sequence that resolves every pending resource drives
the run to an exit. -/
theorem coordFold_terminates (events : List VaultEvent) :
    ∀ s : CoordState, s.exited = none → s.toProcess ≠ [] → s.toProcess.Nodup →
      (∀ r ∈ s.toProcess, ∃ e ∈ events, resolves e r) →
      ∃ c, (events.foldl (coordStep true) s).exited = some c := by
  induction events with
  | nil =>
    intro s _ hne _ hcov
    exact absurd (List.eq_nil_iff_forall_not_mem.mpr fun r hr => by
      obtain ⟨e, he, _⟩ := hcov r hr
      exact absurd he (List.not_mem_nil e)) hne
  | cons e rest ih =>
    intro s h0 hne hnd hcov
    rw [List.foldl_cons]
    cases hex : (coordStep true s e).exited with
    | some c =>
      exact ⟨c, by rw [coordFold_exited hex]; exact hex⟩
    | none =>
      refine ih _ hex (coordStep_none_ne_nil h0 hex) (coordStep_nodup true s e hnd) ?_
      intro r hr
      have hrs : r ∈ s.toProcess := coordStep_subset true s e hr
      obtain ⟨ev, hev, hres⟩ := hcov r hrs
      rcases List.mem_cons.mp hev with heq | htail
      · subst heq
        exact absurd hr (coordStep_resolves_removes h0 hnd hrs hres)
      · exact ⟨ev, htail, hres⟩

/-- C1: In one-shot mode, for every finite sequence of events in which each
declared resource eventually receives a Success or exhausts its retry budget
on a Failure, the pending set becomes empty and the process exits exactly
once, with status 1 exactly when the permanent-failure flag was set and
status 0 otherwise. -/
theorem claim_C1_oneshot_convergence (declared : List RID) (events : List VaultEvent)
    (hnd : declared.Nodup)
    (hcov : ∀ r ∈ declared, ∃ e ∈ events, resolves e r) :
    (coordRun true declared events).toProcess = [] ∧
      (coordRun true declared events).exited =
        some (if (coordRun true declared events).failedResource then 1 else 0) ∧
      ∀ more : List VaultEvent,
        more.foldl (coordStep true) (coordRun true declared events) =
          coordRun true declared events := by
  by_cases hd : declared = []
  · subst hd
    refine ⟨rfl, rfl, ?_⟩
    intro more
    exact coordFold_exited (s := coordRun true [] events) rfl true more
  · have hne : ¬(true = true ∧ declared.isEmpty = true) := by
      simp [List.isEmpty_iff, hd]
    have hrun : coordRun true declared events =
        events.foldl (coordStep true)
          { toProcess := declared, failedResource := false, exited := none } := by
      unfold coordRun
      rw [if_neg hne]
    obtain ⟨c, hc⟩ := coordFold_terminates events
      { toProcess := declared, failedResource := false, exited := none }
      rfl (by simpa using hd) hnd hcov
    rw [← hrun] at hc
    have hgood : goodExit (coordRun true declared events) := by
      rw [hrun]
      exact coordFold_goodExit true events _ (fun c hc => by simp at hc)
    obtain ⟨hempty, hcode⟩ := hgood c hc
    refine ⟨hempty, ?_, ?_⟩
    · rw [← hcode]
      exact hc
    · intro more
      exact coordFold_exited hc true more

/-- C5: A one-shot run with an empty declared resource list exits immediately
with status 0; its outcome is fixed before, and independent of, any event. -/
theorem claim_C5_oneshot_empty_exits_zero (events : List VaultEvent) :
    (coordRun true [] events).exited = some 0 ∧
      coordRun true [] events = coordRun true [] [] := by
  exact ⟨rfl, rfl⟩

/-- Witness for C1 at the spec scenario: `R1`, `R2` declared, events
`Success(R1)`, `Success(R2)`. -/
theorem claim_C1_oneshot_convergence_witness :
    (coordRun true ["R1", "R2"]
        [⟨.success, "R1", 0, 0, true⟩, ⟨.success, "R2", 0, 0, true⟩]).toProcess = [] ∧
      (coordRun true ["R1", "R2"]
          [⟨.success, "R1", 0, 0, true⟩, ⟨.success, "R2", 0, 0, true⟩]).exited =
        some (if (coordRun true ["R1", "R2"]
            [⟨.success, "R1", 0, 0, true⟩,
              ⟨.success, "R2", 0, 0, true⟩]).failedResource then 1 else 0) ∧
      ∀ more : List VaultEvent,
        more.foldl (coordStep true)
            (coordRun true ["R1", "R2"]
              [⟨.success, "R1", 0, 0, true⟩, ⟨.success, "R2", 0, 0, true⟩]) =
          coordRun true ["R1", "R2"]
            [⟨.success, "R1", 0, 0, true⟩, ⟨.success, "R2", 0, 0, true⟩] :=
  claim_C1_oneshot_convergence ["R1", "R2"]
    [⟨.success, "R1", 0, 0, true⟩, ⟨.success, "R2", 0, 0, true⟩]
    (by decide) (by decide)

/-- C2: A Failure event for a resource still in the pending set carries the
incremented observed retry count; if the budget is positive and the count
exceeds it, the resource is removed and the permanent-failure flag is set;
otherwise the resource stays pending and the flag is unchanged. -/
theorem claim_C2_failure_retry_budget (s : CoordState) (r : RID) (maxR k : Nat)
    (e : VaultEvent)
    (hnd : s.toProcess.Nodup) (hpend : r ∈ s.toProcess) (hrun : s.exited = none)
    (htype : e.type = .failure) (hres : e.resource = r)
    (hmax : e.maxRetries = maxR) (hret : e.retries = watcherRetryBump k) :
    e.retries = k + 1 ∧
      (if 0 < maxR ∧ maxR < k + 1 then
        r ∉ (coordStep true s e).toProcess ∧ (coordStep true s e).failedResource = true
      else
        r ∈ (coordStep true s e).toProcess ∧
          (coordStep true s e).failedResource = s.failedResource) := by
  refine ⟨hret, ?_⟩
  rw [coordStep_toProcess true s e hrun, coordStep_failedResource true s e hrun]
  unfold coordTransition
  rw [htype]
  dsimp only
  rw [hres, hmax, hret]
  unfold watcherRetryBump
  split
  case isTrue hcond =>
    rw [if_pos ⟨hcond.1, hcond.2, hpend⟩]
    exact ⟨by simpa using hnd.not_mem_erase, rfl⟩
  case isFalse hcond =>
    rw [if_neg (fun hc => hcond ⟨hc.1, hc.2.1⟩)]
    exact ⟨hpend, rfl⟩

/-- Witness for C2 at the spec scenario: `R1` with budget 2, third Failure
carrying retry count 3. -/
theorem claim_C2_failure_retry_budget_witness :
    (⟨EventType.failure, "R1", 2, 3, true⟩ : VaultEvent).retries = 2 + 1 ∧
      (if 0 < 2 ∧ 2 < 2 + 1 then
        ("R1" : RID) ∉ (coordStep true ⟨["R1"], false, none⟩
            ⟨EventType.failure, "R1", 2, 3, true⟩).toProcess ∧
          (coordStep true ⟨["R1"], false, none⟩
            ⟨EventType.failure, "R1", 2, 3, true⟩).failedResource = true
      else
        ("R1" : RID) ∈ (coordStep true ⟨["R1"], false, none⟩
            ⟨EventType.failure, "R1", 2, 3, true⟩).toProcess ∧
          (coordStep true ⟨["R1"], false, none⟩
            ⟨EventType.failure, "R1", 2, 3, true⟩).failedResource =
            (⟨["R1"], false, none⟩ : CoordState).failedResource) :=
  claim_C2_failure_retry_budget ⟨["R1"], false, none⟩ "R1" 2 2
    ⟨EventType.failure, "R1", 2, 3, true⟩
    (by decide) (by decide) rfl rfl rfl rfl rfl

/-- The Success branch of the transition leaves the failure flag alone. -/
theorem coordTransition_success_flag (b : Bool) (s : CoordState) (e : VaultEvent)
    (ht : e.type = .success) :
    (coordTransition b s e).failedResource = s.failedResource := by
  unfold coordTransition
  rw [ht]
  dsimp only
  split <;> rfl

/-- A run consisting only of Success events never changes the failure flag. -/
theorem coordFold_success_flag (b : Bool) (events : List VaultEvent) :
    ∀ s : CoordState, (∀ e ∈ events, e.type = .success) →
      (events.foldl (coordStep b) s).failedResource = s.failedResource := by
  induction events with
  | nil => intro s _; rfl
  | cons e rest ih =>
    intro s hall
    rw [List.foldl_cons, ih _ (fun e' he' => hall e' (List.mem_cons_of_mem e he'))]
    cases h0 : s.exited with
    | some c => rw [coordStep_exited h0]
    | none =>
      rw [coordStep_failedResource b s e h0,
        coordTransition_success_flag b s e (hall e (List.mem_cons_self e rest))]

/-- C9: A Success event for a pending resource removes it even when
`processResource` returns an error (the error is only logged and the failure
flag untouched), and a one-shot run in which every write fails but every
declared resource receives a Success still exits with status 0. -/
theorem claim_C9_success_removal_ignores_write_error
    (s : CoordState) (e : VaultEvent) (declared : List RID) (events : List VaultEvent)
    (h0 : s.exited = none) (hsnd : s.toProcess.Nodup)
    (hmem : e.resource ∈ s.toProcess)
    (htype : e.type = .success) (_hw : e.writeOk = false)
    (hnd : declared.Nodup)
    (hall : ∀ e' ∈ events, e'.type = .success)
    (_hallw : ∀ e' ∈ events, e'.writeOk = false)
    (hcov : ∀ r ∈ declared, ∃ e' ∈ events, e'.resource = r) :
    (e.resource ∉ (coordStep true s e).toProcess ∧
        (coordStep true s e).failedResource = s.failedResource) ∧
      (coordRun true declared events).exited = some 0 ∧
        (coordRun true declared events).failedResource = false := by
  refine ⟨⟨?_, ?_⟩, ?_⟩
  · exact coordStep_resolves_removes h0 hsnd hmem ⟨rfl, Or.inl htype⟩
  · rw [coordStep_failedResource true s e h0,
      coordTransition_success_flag true s e htype]
  · by_cases hd : declared = []
    · subst hd
      exact ⟨rfl, rfl⟩
    · have hrun : coordRun true declared events =
          events.foldl (coordStep true)
            { toProcess := declared, failedResource := false, exited := none } := by
        unfold coordRun
        rw [if_neg (by simp [List.isEmpty_iff, hd])]
      have hflag : (coordRun true declared events).failedResource = false := by
        rw [hrun]
        exact coordFold_success_flag true events _ hall
      obtain ⟨c, hc⟩ := coordFold_terminates events
        { toProcess := declared, failedResource := false, exited := none }
        rfl (by simpa using hd) hnd
        (fun r hr => by
          obtain ⟨e', he', hres⟩ := hcov r hr
          exact ⟨e', he', hres, Or.inl (hall e' he')⟩)
      rw [← hrun] at hc
      have hgood : goodExit (coordRun true declared events) := by
        rw [hrun]
        exact coordFold_goodExit true events _ (fun c hc => by simp at hc)
      obtain ⟨-, hcode⟩ := hgood c hc
      rw [hflag] at hcode
      simp only [Bool.false_eq_true, if_false] at hcode
      subst hcode
      exact ⟨hc, hflag⟩

/-- Witness for C9: single resource `R1`, one Success event whose write
fails. -/
theorem claim_C9_success_removal_ignores_write_error_witness :
    ((⟨EventType.success, "R1", 0, 0, false⟩ : VaultEvent).resource ∉
        (coordStep true ⟨["R1"], false, none⟩
          ⟨EventType.success, "R1", 0, 0, false⟩).toProcess ∧
      (coordStep true ⟨["R1"], false, none⟩
          ⟨EventType.success, "R1", 0, 0, false⟩).failedResource =
        (⟨["R1"], false, none⟩ : CoordState).failedResource) ∧
      (coordRun true ["R1"] [⟨EventType.success, "R1", 0, 0, false⟩]).exited = some 0 ∧
        (coordRun true ["R1"] [⟨EventType.success, "R1", 0, 0, false⟩]).failedResource = false :=
  claim_C9_success_removal_ignores_write_error
    ⟨["R1"], false, none⟩ ⟨EventType.success, "R1", 0, 0, false⟩
    ["R1"] [⟨EventType.success, "R1", 0, 0, false⟩]
    rfl (by decide) (by decide) rfl rfl (by decide)
    (by decide) (by decide) (by decide)

/-- One method changes exactly the one counter named by its key, by one. -/
theorem counterVal_applyOp (c : MState) (o : MOp) (k : CKey) :
    counterVal (applyOp c o) k =
      counterVal c k + (if opKey o = some k then 1 else 0) := by
  cases o <;> cases k <;>
    simp only [applyOp, counterVal, opKey, Option.some.injEq, reduceCtorEq] <;>
    split_ifs <;> simp_all

/-- Counting version over a whole method sequence: no update is ever lost. -/
theorem counterVal_fold (ops : List MOp) :
    ∀ (c : MState) (k : CKey),
      counterVal (ops.foldl applyOp c) k =
        counterVal c k + (ops.countP (fun o => decide (opKey o = some k)) : Int) := by
  induction ops with
  | nil => intro c k; simp
  | cons o rest ih =>
    intro c k
    rw [List.foldl_cons, ih, counterVal_applyOp, List.countP_cons]
    by_cases h : opKey o = some k
    all_goals simp [h]
    omega

/-- The gauge entry of a resource after a method sequence is the payload of
the most recent gauge write for it, else the starting entry. -/
theorem gauge_fold (ops : List MOp) :
    ∀ (c : MState) (rid : String),
      (ops.foldl applyOp c).resourceExpiry rid =
        lastWriteFrom rid (c.resourceExpiry rid) ops := by
  induction ops with
  | nil => intro c rid; rfl
  | cons o rest ih =>
    intro c rid
    rw [List.foldl_cons, ih]
    unfold lastWriteFrom
    rw [List.foldl_cons]
    congr 1
    cases o <;> simp [applyOp]

/-- C6: Under any sequence of collector method calls, every individual
counter is non-decreasing (also along any prefix extension), the final value
of each counter is its initial value plus the exact number of calls keyed to
it (no lost updates), and the gauge holds exactly the most recently written
value per resource. -/
theorem claim_C6_counter_monotone_no_lost_updates
    (c : MState) (k : CKey) (ops more : List MOp) (rid : String) :
    counterVal c k ≤ counterVal (ops.foldl applyOp c) k ∧
      counterVal (ops.foldl applyOp c) k ≤ counterVal ((ops ++ more).foldl applyOp c) k ∧
      counterVal (ops.foldl applyOp c) k =
        counterVal c k + (ops.countP (fun o => decide (opKey o = some k)) : Int) ∧
      (ops.foldl applyOp c).resourceExpiry rid =
        lastWriteFrom rid (c.resourceExpiry rid) ops := by
  refine ⟨?_, ?_, counterVal_fold ops c k, gauge_fold ops c rid⟩
  · rw [counterVal_fold ops c k]
    have : (0 : Int) ≤ (ops.countP (fun o => decide (opKey o = some k)) : Int) :=
      Int.natCast_nonneg _
    omega
  · rw [List.foldl_append]
    rw [counterVal_fold more (ops.foldl applyOp c) k]
    have : (0 : Int) ≤ (more.countP (fun o => decide (opKey o = some k)) : Int) :=
      Int.natCast_nonneg _
    omega

/-- C7 fails as stated: `Collect` emits the process-stage counter families,
but `Describe` never sends their descriptors. -/
theorem claim_C7_counterexample :
    DescName.resourceProcessTotalMetric ∈ collectDescs ∧
      DescName.resourceProcessTotalMetric ∉ describe mInit := by
  decide

/-- C7 amended: `Describe` emits a fixed, state-independent set of
descriptors (so it is available before any data exists), and that set covers
every family `Collect` can emit except the three process-stage counter
families, which `Collect` emits but `Describe` omits. -/
theorem claim_C7_describe_fixed_but_misses_process_stage
    (c c' : MState) (d : DescName) (hd : d ∈ collectDescs) :
    describe c = describe c' ∧
      (d ∈ describe c ↔
        ¬(d = .resourceProcessTotalMetric ∨ d = .resourceProcessSuccessMetric ∨
          d = .resourceProcessErrorsMetric)) := by
  refine ⟨rfl, ?_⟩
  cases d <;> simp [describe, collectDescs] at hd ⊢

/-- Witness for the amended C7 at a concrete family and state. -/
theorem claim_C7_describe_fixed_but_misses_process_stage_witness :
    describe mInit = describe mInit ∧
      (DescName.tokenTotalMetric ∈ describe mInit ↔
        ¬(DescName.tokenTotalMetric = .resourceProcessTotalMetric ∨
          DescName.tokenTotalMetric = .resourceProcessSuccessMetric ∨
          DescName.tokenTotalMetric = .resourceProcessErrorsMetric)) :=
  claim_C7_describe_fixed_but_misses_process_stage mInit mInit
    DescName.tokenTotalMetric (by decide)

/-- C3 fails on the code: in one-shot mode the metrics collector is never
initialized, and any Success event of the pki kind — malformed payload or
not — makes the observer dereference the nil collector and panic, crashing
the process. -/
theorem claim_C3_oneshot_pki_event_panics :
    reportExpiryStep none ⟨.success, "pki", "R1", none⟩ = .error .nilDeref ∧
      reportExpiryStep none ⟨.success, "pki", "R1", some .nonInt⟩ = .error .nilDeref ∧
      reportExpiryStep none ⟨.success, "pki", "R1", some (.int 1700000000)⟩ =
        .error .nilDeref := by
  exact ⟨rfl, rfl, rfl⟩

/-- C4 fails as stated: the generic-error reason the code reports for a
missing expiry field is `no_expiration_in_pki_resource`, not the claimed
`no_expiration_in_resource`, whose counter stays at zero. -/
theorem claim_C4_counterexample :
    reportExpiryStep (some mInit) ⟨.success, "pki", "R1", none⟩ =
        .ok (some (applyOp mInit (.Error "no_expiration_in_pki_resource"))) ∧
      counterVal (applyOp mInit (.Error "no_expiration_in_pki_resource"))
          (.genError "no_expiration_in_resource") = 0 ∧
      counterVal (applyOp mInit (.Error "no_expiration_in_pki_resource"))
          (.genError "no_expiration_in_pki_resource") = 1 := by
  refine ⟨rfl, ?_, ?_⟩ <;> decide

/-- C4 amended: with an initialized collector, a pki Success event whose
expiration assertion fails increments exactly the generic-error counter for
`no_expiration_in_pki_resource`, one whose `Int64()` conversion fails
increments exactly the one for `expiration_not_int64`, and neither touches
any gauge entry. -/
theorem claim_C4_malformed_payload_reasons (c : MState) (e : ObsEvent)
    (htype : e.type = .success) (hkind : e.resourceKind = "pki") :
    (e.expiration = none →
      reportExpiryStep (some c) e =
          .ok (some (applyOp c (.Error "no_expiration_in_pki_resource"))) ∧
        counterVal (applyOp c (.Error "no_expiration_in_pki_resource"))
            (.genError "no_expiration_in_pki_resource") =
          counterVal c (.genError "no_expiration_in_pki_resource") + 1 ∧
        (∀ k : CKey, k ≠ .genError "no_expiration_in_pki_resource" →
          counterVal (applyOp c (.Error "no_expiration_in_pki_resource")) k =
            counterVal c k) ∧
        (applyOp c (.Error "no_expiration_in_pki_resource")).resourceExpiry =
          c.resourceExpiry) ∧
    (e.expiration = some .nonInt →
      reportExpiryStep (some c) e =
          .ok (some (applyOp c (.Error "expiration_not_int64"))) ∧
        counterVal (applyOp c (.Error "expiration_not_int64"))
            (.genError "expiration_not_int64") =
          counterVal c (.genError "expiration_not_int64") + 1 ∧
        (∀ k : CKey, k ≠ .genError "expiration_not_int64" →
          counterVal (applyOp c (.Error "expiration_not_int64")) k =
            counterVal c k) ∧
        (applyOp c (.Error "expiration_not_int64")).resourceExpiry =
          c.resourceExpiry) := by
  have hbump : ∀ reason : String,
      counterVal (applyOp c (.Error reason)) (.genError reason) =
        counterVal c (.genError reason) + 1 := by
    intro reason
    rw [counterVal_applyOp]
    simp [opKey]
  have hother : ∀ (reason : String) (k : CKey), k ≠ .genError reason →
      counterVal (applyOp c (.Error reason)) k = counterVal c k := by
    intro reason k hk
    rw [counterVal_applyOp]
    simp [opKey, Option.some.injEq]
    intro h
    exact absurd h.symm hk
  constructor
  · intro hexp
    refine ⟨?_, hbump _, hother _, rfl⟩
    simp [reportExpiryStep, htype, hkind, hexp, metricsError]
  · intro hexp
    refine ⟨?_, hbump _, hother _, rfl⟩
    simp [reportExpiryStep, htype, hkind, hexp, metricsError]

/-- Witness for the amended C4: missing expiry field on a fresh collector. -/
theorem claim_C4_malformed_payload_reasons_witness :
    reportExpiryStep (some mInit) ⟨.success, "pki", "R1", none⟩ =
        .ok (some (applyOp mInit (.Error "no_expiration_in_pki_resource"))) ∧
      counterVal (applyOp mInit (.Error "no_expiration_in_pki_resource"))
          (.genError "no_expiration_in_pki_resource") =
        counterVal mInit (.genError "no_expiration_in_pki_resource") + 1 ∧
      (∀ k : CKey, k ≠ .genError "no_expiration_in_pki_resource" →
        counterVal (applyOp mInit (.Error "no_expiration_in_pki_resource")) k =
          counterVal mInit k) ∧
      (applyOp mInit (.Error "no_expiration_in_pki_resource")).resourceExpiry =
        mInit.resourceExpiry :=
  (claim_C4_malformed_payload_reasons mInit ⟨.success, "pki", "R1", none⟩ rfl rfl).1 rfl

/-- C10: after `Init`, the three process-stage maps and the process-stage and
token descriptors are nil, and the first call to any process-stage counter
method panics on assignment into a nil map instead of recording the
increment. -/
theorem claim_C10_init_process_stage_nil_panics :
    metricsInit.resourceProcessTotals = none ∧
      metricsInit.resourceProcessSuccesses = none ∧
      metricsInit.resourceProcessErrors = none ∧
      metricsInit.resourceProcessTotalMetric = false ∧
      metricsInit.resourceProcessSuccessMetric = false ∧
      metricsInit.resourceProcessErrorsMetric = false ∧
      metricsInit.tokenTotalMetric = false ∧
      metricsInit.tokenSuccessMetric = false ∧
      metricsInit.tokenErrorsMetric = false ∧
      ∀ resourceID stage : String,
        nilResourceProcessTotal metricsInit resourceID stage = .error .nilMapAssign ∧
          nilResourceProcessSuccess metricsInit resourceID stage = .error .nilMapAssign ∧
          nilResourceProcessError metricsInit resourceID stage = .error .nilMapAssign := by
  exact ⟨rfl, rfl, rfl, rfl, rfl, rfl, rfl, rfl, rfl, fun _ _ => ⟨rfl, rfl, rfl⟩⟩

/-- C8 fails as stated: in the Success handler the lock is taken before
`processResource`, so the materialization step executes with the exclusive
lock held. -/
theorem claim_C8_counterexample :
    heldDuring false .writeOutput (successHandlerTrace true) = true := by
  rfl

/-- C8 amended: the handler acquires the exclusive lock first and releases
it last, so the lock is held across the materialization step as well as the
state-machine transition and exit check, in both handler branches and both
modes — concurrent per-event tasks therefore serialize entirely, including
their materialization work. -/
theorem claim_C8_lock_held_across_handler (b : Bool) :
    heldDuring false .writeOutput (successHandlerTrace b) = true ∧
      heldDuring false .removePending (successHandlerTrace true) = true ∧
      heldDuring false .exitCheck (successHandlerTrace b) = true ∧
      heldDuring false .failureTransition failureHandlerTrace = true ∧
      heldDuring false .exitCheck failureHandlerTrace = true := by
  cases b <;> exact ⟨rfl, rfl, rfl, rfl, rfl⟩

end VaultSidekick
